import Mathlib

/-!
Formal model of the Monreon stock-scanner dashboard (`src/app.py`).

Modelling conventions:
* Python floats are modelled as exact rationals (`ℚ`); no claim here
  depends on floating-point rounding.
* A Python `dict[str, Any]` is modelled as an insertion-ordered
  association list (`Dict`); assignment (`dset`) replaces in place,
  which matches CPython's key-order semantics.
* A pandas `DataFrame` of price bars is a list of bars; a row that is
  entirely NaN (dropped by `dropna(how="all")`) is modelled as `none`
  in the provider's raw response.  Required fields `close`/`volume`
  of a surviving bar are exact rationals.
* The yfinance collaborator is modelled by its visible behaviours at
  the `yf.download` call site: it either returns a frame of rows or
  raises; `fetch_yf_data` catches the latter.
-/

/-- Python whitespace stripped by `str.strip()`. -/
def isPySpace (c : Char) : Bool :=
  c = ' ' || c = '\t' || c = '\n' || c = '\r' || c = '\x0b' || c = '\x0c'

/-- `str.strip()` on a character list. -/
def stripChars (l : List Char) : List Char :=
  ((l.dropWhile isPySpace).reverse.dropWhile isPySpace).reverse

/-- Python `s.strip()`. -/
def pyStrip (s : String) : String := ⟨stripChars s.data⟩

/-- Python `s.upper()` (tickers are ASCII, where `Char.toUpper` agrees). -/
def pyUpper (s : String) : String := ⟨s.data.map Char.toUpper⟩

/-- Split a character list at every occurrence of `c`
(the semantics of Python `s.split(",")` for a one-character separator:
`splitOnChar c [] = [[]]`, matching `"".split(",") == [""]`). -/
def splitOnChar (c : Char) : List Char → List (List Char)
  | [] => [[]]
  | ch :: rest =>
    let r := splitOnChar c rest
    if ch = c then [] :: r
    else
      match r with
      | [] => [[ch]]
      | f :: fs => (ch :: f) :: fs

/-- Python `s.split(",")`. -/
def splitCommas (s : String) : List String :=
  (splitOnChar ',' s.data).map fun l => ⟨l⟩

/-- Values stored in the analysis dictionaries (`Dict[str, Any]`);
`PyVal.none` is Python `None`. -/
inductive PyVal where
  | str (s : String)
  | num (q : ℚ)
  | int (n : ℤ)
  | bool (b : Bool)
  | none
deriving DecidableEq, Repr

/-- A Python `dict[str, PyVal]` as an insertion-ordered association list. -/
abbrev Dict := List (String × PyVal)

/-- Dictionary lookup (`d[k]` as an `Option`: `Option.none` = `KeyError`). -/
def dget : Dict → String → Option PyVal
  | [], _ => Option.none
  | (k', v) :: rest, k => if k' = k then some v else dget rest k

/-- Dictionary assignment `d[k] = v`: replaces in place, else appends
(CPython dicts keep the original position of an updated key). -/
def dset : Dict → String → PyVal → Dict
  | [], k, v => [(k, v)]
  | (k', v') :: rest, k, v =>
    if k' = k then (k, v) :: rest else (k', v') :: dset rest k v

/-- Python `d.get(k)` (default `None`). -/
def pyGet (d : Dict) (k : String) : PyVal := (dget d k).getD PyVal.none

/-- Python `d.get(k, default)`. -/
def pyGetD (d : Dict) (k : String) (v : PyVal) : PyVal := (dget d k).getD v

/-- Python truthiness of a `PyVal` (used by `if not r.get("ok")`). -/
def pyTruthy : PyVal → Bool
  | .str s => !(s == "")
  | .num q => !(q == 0)
  | .int n => !(n == 0)
  | .bool b => b
  | .none => false

/-- One OHLCV bar; only the fields the code reads (`Close`, `Volume`). -/
structure Bar where
  close : ℚ
  volume : ℚ
deriving DecidableEq, Repr

/-- Visible behaviour of `yf.download` at the call site in
`fetch_yf_data` (src/app.py:120): a frame of rows (a `none` row is an
all-NaN row, which `dropna(how="all")` removes), or a raised exception
(unknown symbol, outage, malformed response inside the library). -/
inductive ProviderResp where
  | ok (rows : List (Option Bar))
  | err (msg : String)
deriving DecidableEq, Repr

/-- `fetch_yf_data` (src/app.py:118-125): returns the downloaded frame
with all-NaN rows dropped, and catches every exception by returning an
empty frame. -/
def fetch_yf_data : ProviderResp → List Bar
  | .ok rows => rows.filterMap id
  | .err _ => []

/-- pandas `Series.tail n`: the last `min n (length)` entries. -/
def pdTail (n : ℕ) (l : List α) : List α := l.drop (l.length - n)

/-- pandas `Series.mean` on a nonempty series. -/
def pdMean (l : List ℚ) : ℚ := l.sum / (l.length : ℚ)

/-- Python `int()` on a float: truncation toward zero. -/
def pyInt (q : ℚ) : ℤ := if 0 ≤ q then q.floor else q.ceil

/-- `analyze_ticker` (src/app.py:128-155).  The provider argument is the
behaviour of `yf.download` for each requested symbol at the fixed
period/interval `("6mo", "1d")`. -/
def analyze_ticker (provider : String → ProviderResp) (ticker0 : String) : Dict :=
  let ticker := pyStrip (pyUpper ticker0)
  let info : Dict := [("ticker", .str ticker), ("ok", .bool false)]
  let df := fetch_yf_data (provider ticker)
  match df with
  | [] => dset info "reason" (.str "No data from yfinance")
  | b :: bs =>
    let close := (b :: bs).getLast (by simp)
    let info := dset info "last_price" (.num close.close)
    let last20 := pdTail 20 (b :: bs)
    let m20 := pdMean (last20.map Bar.close)
    let info := dset info "ma20" (.num m20)
    let info := dset info "momentum"
      (.str (if close.close > m20 then "bullish" else "neutral/weak"))
    let info := dset info "last_volume" (.int (pyInt close.volume))
    let info := dset info "avg_volume_20"
      (.int (pyInt (pdMean (last20.map Bar.volume))))
    dset info "ok" (.bool true)

/-- The scan loop of `main` (src/app.py:242-248): one `analyze_ticker`
call per requested ticker, results collected in order (the courtesy
`time.sleep(0.1)` has no observable effect on the results). -/
def runScan (provider : String → ProviderResp) (tickers : List String) : List Dict :=
  tickers.map (analyze_ticker provider)

/-- One row of `build_dataframe` (src/app.py:160-174).  The failure
branch uses `r.get`, which cannot fail; the success branch uses
`r["k"]` indexing, whose `KeyError` is modelled as `Option.none`. -/
def buildRow (r : Dict) : Option Dict :=
  if pyTruthy (pyGet r "ok") = false then
    some [("ticker", pyGet r "ticker"),
          ("status", pyGetD r "reason" (.str "no data"))]
  else
    match dget r "ticker", dget r "last_price", dget r "ma20", dget r "momentum",
        dget r "last_volume", dget r "avg_volume_20" with
    | some t, some p, some m, some mo, some lv, some av =>
      some [("ticker", t), ("price", p), ("ma20", m), ("momentum", mo),
            ("last_volume", lv), ("avg_volume_20", av)]
    | _, _, _, _, _, _ => Option.none

/-- Append a column name if it has not been seen yet. -/
def addCol (acc : List String) (k : String) : List String :=
  if k ∈ acc then acc else acc ++ [k]

/-- pandas `DataFrame(rows)` column order: keys in first-seen order
scanning the row dicts in order. -/
def collectCols (ds : List Dict) : List String :=
  ds.foldl (fun acc d => (d.map Prod.fst).foldl addCol acc) []

/-- A pandas `DataFrame`: named columns plus rows of optional cells
(`Option.none` = the row dict had no such key, i.e. NaN). -/
structure Frame where
  cols : List String
  rows : List (List (Option PyVal))
deriving DecidableEq, Repr

/-- `pd.DataFrame(rows)` for a list of row dicts. -/
def mkFrame (ds : List Dict) : Frame :=
  let cs := collectCols ds
  { cols := cs, rows := ds.map fun d => cs.map fun c => dget d c }

/-- The row-collection loop of `build_dataframe` (src/app.py:159-174):
rows are appended in order; a raised `KeyError` aborts the loop
(`Option.none`). -/
def buildRows : List Dict → Option (List Dict)
  | [] => some []
  | r :: rs =>
    match buildRow r, buildRows rs with
    | some row, some rows => some (row :: rows)
    | _, _ => Option.none

/-- `build_dataframe` (src/app.py:158-175); `Option.none` models an
uncaught `KeyError` aborting the call. -/
def build_dataframe (results : List Dict) : Option Frame :=
  (buildRows results).map mkFrame

/-- The ticker parsing of `main` (src/app.py:241):
`[t.strip().upper() for t in tickers_str.split(",") if t.strip()]`. -/
def parseTickers (s : String) : List String :=
  (splitCommas s).filterMap fun t =>
    let u := pyStrip t
    if u = "" then Option.none else some (pyUpper u)

/-- The license-gate/session fields of `st.session_state` that the
claims mention (src/app.py:33-36, 215-217, 251). -/
structure Session where
  auth_ok : Bool
  license : Option String
  today_count : ℤ
  today_date : String
  tickers_input : Option String
  last_df : Option Frame
deriving DecidableEq, Repr

/-- The "Analyze now" button handler (src/app.py:237-251): charge one
use, run the scan, store the resulting dataframe. -/
def analyzeNowClick (provider : String → ProviderResp) (tickersStr : String)
    (s : Session) : Session :=
  let s1 := { s with today_count := s.today_count + 1 }
  let results := runScan provider (parseTickers tickersStr)
  { s1 with last_df := build_dataframe results }

example : fetch_yf_data (.err "boom") = [] := rfl

example :
    analyze_ticker (fun _ => .err "x") " aapl " =
      [("ticker", .str "AAPL"), ("ok", .bool false),
       ("reason", .str "No data from yfinance")] := by decide

/-! ### Shape lemmas for `analyze_ticker` -/

/-- A no-data fetch yields exactly the failure dictionary. -/
theorem analyze_ticker_of_empty (p : String → ProviderResp) (t : String)
    (h : fetch_yf_data (p (pyStrip (pyUpper t))) = []) :
    analyze_ticker p t =
      [("ticker", .str (pyStrip (pyUpper t))), ("ok", .bool false),
       ("reason", .str "No data from yfinance")] := by
  unfold analyze_ticker
  simp only [h]
  rfl

/-- A nonempty fetch yields exactly the success dictionary, with the
metric values spelled out. -/
theorem analyze_ticker_of_cons (p : String → ProviderResp) (t : String)
    (b : Bar) (bs : List Bar)
    (h : fetch_yf_data (p (pyStrip (pyUpper t))) = b :: bs) :
    analyze_ticker p t =
      [("ticker", .str (pyStrip (pyUpper t))), ("ok", .bool true),
       ("last_price", .num ((b :: bs).getLast (by simp)).close),
       ("ma20", .num (pdMean ((pdTail 20 (b :: bs)).map Bar.close))),
       ("momentum", .str (if ((b :: bs).getLast (by simp)).close >
            pdMean ((pdTail 20 (b :: bs)).map Bar.close)
          then "bullish" else "neutral/weak")),
       ("last_volume", .int (pyInt ((b :: bs).getLast (by simp)).volume)),
       ("avg_volume_20", .int (pyInt (pdMean ((pdTail 20 (b :: bs)).map Bar.volume))))] := by
  unfold analyze_ticker
  simp only [h]
  rfl

/-! ### Concrete series used by the claims -/

/-- The spec's worked example: closes `[100,102,101,105,103,99,97]`
(volumes 10 throughout). -/
def exBars : List Bar :=
  [⟨100, 10⟩, ⟨102, 10⟩, ⟨101, 10⟩, ⟨105, 10⟩, ⟨103, 10⟩, ⟨99, 10⟩, ⟨97, 10⟩]

/-- A provider that always returns the example series. -/
def exProvider : String → ProviderResp := fun _ => .ok (exBars.map some)

/-- A series whose every close (hence every reference close) is `0`. -/
def zeroBars : List Bar := List.replicate 6 ⟨0, 1⟩

/-- A provider that always returns the all-zero-close series. -/
def zeroProvider : String → ProviderResp := fun _ => .ok (zeroBars.map some)


/-- The example series minus its first bar (used to instantiate shape
lemmas at `exBars`). -/
def exRest : List Bar :=
  [⟨102, 10⟩, ⟨101, 10⟩, ⟨105, 10⟩, ⟨103, 10⟩, ⟨99, 10⟩, ⟨97, 10⟩]

/-! ### C1: the momentum computation -/

/-- Claim C1 is false on the code: at the spec's example series
`[100,102,101,105,103,99,97]` the code's momentum output is the
categorical label "neutral/weak" — not the claimed 5-bar percentage
`(97 - 102) / 102 * 100` and not any number — while last_price is 97. -/
theorem c1_counterexample :
    dget (analyze_ticker exProvider "EX") "momentum" = some (.str "neutral/weak") ∧
    (∀ q : ℚ, PyVal.str "neutral/weak" ≠ PyVal.num q) ∧
    dget (analyze_ticker exProvider "EX") "last_price" = some (.num 97) := by
  refine ⟨?_, fun q h => PyVal.noConfusion h, ?_⟩
  · rw [analyze_ticker_of_cons exProvider "EX" ⟨100, 10⟩ exRest rfl]
    norm_num [dget, pdMean, pdTail, exRest, List.getLast]
    decide
  · rw [analyze_ticker_of_cons exProvider "EX" ⟨100, 10⟩ exRest rfl]
    norm_num [dget, exRest, List.getLast]
    decide

/-- Claim C1 (amended): for every fetched series with at least one bar
the code reports last_price equal to the last close, and its momentum
output is a categorical label — "bullish" when the last close strictly
exceeds the mean of the last 20 (or all, when fewer) closes, otherwise
"neutral/weak".  No fixed-lookback percentage change (5-bar or 21-bar)
is computed and nothing is marked unavailable. -/
theorem c1_amended_momentum_label (p : String → ProviderResp) (t : String)
    (b : Bar) (bs : List Bar)
    (h : fetch_yf_data (p (pyStrip (pyUpper t))) = b :: bs) :
    dget (analyze_ticker p t) "last_price" =
      some (.num ((b :: bs).getLast (by simp)).close) ∧
    dget (analyze_ticker p t) "momentum" =
      some (.str (if ((b :: bs).getLast (by simp)).close >
          pdMean ((pdTail 20 (b :: bs)).map Bar.close)
        then "bullish" else "neutral/weak")) := by
  rw [analyze_ticker_of_cons p t b bs h]
  exact ⟨rfl, rfl⟩

/-- Witness for `c1_amended_momentum_label` at the example series. -/
theorem c1_witness :
    dget (analyze_ticker exProvider "EX") "last_price" = some (.num 97) ∧
    dget (analyze_ticker exProvider "EX") "momentum" = some (.str "neutral/weak") := by
  have h := c1_amended_momentum_label exProvider "EX" ⟨100, 10⟩ exRest rfl
  refine ⟨?_, ?_⟩
  · rw [h.1]; norm_num [exRest, List.getLast]
  · rw [h.2]
    norm_num [exRest, List.getLast, pdMean, pdTail]

/-! ### C2: moving averages -/

/-- Claim C2 is false on the code: the example series has only 7 bars
(fewer than 20), yet the output still contains a 20-bar average — key
"ma20", equal to the mean of all 7 closes — instead of omitting the
window, and no "SMA_w" key (in particular "SMA_5", although 7 ≥ 5)
exists for any window. -/
theorem c2_counterexample :
    exBars.length < 20 ∧
    dget (analyze_ticker exProvider "EX") "ma20" = some (.num 101) ∧
    dget (analyze_ticker exProvider "EX") "SMA_5" = Option.none ∧
    dget (analyze_ticker exProvider "EX") "SMA_20" = Option.none := by
  refine ⟨by decide, ?_, ?_, ?_⟩ <;>
    rw [analyze_ticker_of_cons exProvider "EX" ⟨100, 10⟩ exRest rfl]
  · norm_num [dget, pdMean, pdTail, exRest]
    decide
  · decide
  · decide

/-- Claim C2 (amended): the code computes exactly one moving average,
stored under key "ma20": the arithmetic mean of the last min(20, len)
closes.  It is present for every nonempty series — also when the series
is shorter than 20 bars — and no "SMA_w" keys exist. -/
theorem c2_amended_ma20 (p : String → ProviderResp) (t : String)
    (b : Bar) (bs : List Bar)
    (h : fetch_yf_data (p (pyStrip (pyUpper t))) = b :: bs) :
    dget (analyze_ticker p t) "ma20" =
      some (.num (pdMean ((pdTail 20 (b :: bs)).map Bar.close))) ∧
    dget (analyze_ticker p t) "SMA_20" = Option.none ∧
    dget (analyze_ticker p t) "SMA_5" = Option.none := by
  rw [analyze_ticker_of_cons p t b bs h]
  exact ⟨rfl, rfl, rfl⟩

/-- Witness for `c2_amended_ma20` at the example series. -/
theorem c2_witness :
    dget (analyze_ticker exProvider "EX") "ma20" = some (.num 101) ∧
    dget (analyze_ticker exProvider "EX") "SMA_20" = Option.none := by
  have h := c2_amended_ma20 exProvider "EX" ⟨100, 10⟩ exRest rfl
  refine ⟨?_, h.2.1⟩
  rw [h.1]; norm_num [exRest, pdMean, pdTail]

/-! ### C7: momentum with a zero reference close -/

/-- Claim C7 is false on the code: on a series whose closes (hence every
reference close) are all 0, the momentum output is the definite label
"neutral/weak", not an "unavailable" marker (no field is marked
unavailable and the key is present). -/
theorem c7_counterexample :
    dget (analyze_ticker zeroProvider "Z") "momentum" = some (.str "neutral/weak") ∧
    some (PyVal.str "neutral/weak") ≠ (Option.none : Option PyVal) := by
  refine ⟨?_, fun h => Option.noConfusion h⟩
  rw [analyze_ticker_of_cons zeroProvider "Z" ⟨0, 1⟩ (List.replicate 5 ⟨0, 1⟩) rfl]
  norm_num [dget, pdMean, pdTail, List.getLast, List.replicate]
  decide

/-- Claim C7 (amended): the momentum computation performs no division by
a reference close and is total: for every nonempty series — including
one whose reference close is 0 — it returns one of the two categorical
labels, never an error, an infinity, or an "unavailable" marker. -/
theorem c7_amended_total_label (p : String → ProviderResp) (t : String)
    (b : Bar) (bs : List Bar)
    (h : fetch_yf_data (p (pyStrip (pyUpper t))) = b :: bs) :
    dget (analyze_ticker p t) "momentum" = some (.str "bullish") ∨
    dget (analyze_ticker p t) "momentum" = some (.str "neutral/weak") := by
  rw [analyze_ticker_of_cons p t b bs h]
  by_cases hc : ((b :: bs).getLast (by simp)).close >
      pdMean ((pdTail 20 (b :: bs)).map Bar.close)
  · left
    show some (PyVal.str (if ((b :: bs).getLast (by simp)).close >
        pdMean ((pdTail 20 (b :: bs)).map Bar.close)
      then "bullish" else "neutral/weak")) = _
    rw [if_pos hc]
  · right
    show some (PyVal.str (if ((b :: bs).getLast (by simp)).close >
        pdMean ((pdTail 20 (b :: bs)).map Bar.close)
      then "bullish" else "neutral/weak")) = _
    rw [if_neg hc]

/-- Witness for `c7_amended_total_label` at the all-zero-close series. -/
theorem c7_witness :
    dget (analyze_ticker zeroProvider "Z") "momentum" = some (.str "bullish") ∨
    dget (analyze_ticker zeroProvider "Z") "momentum" = some (.str "neutral/weak") :=
  c7_amended_total_label zeroProvider "Z" ⟨0, 1⟩ (List.replicate 5 ⟨0, 1⟩) rfl

/-! ### C5: the data fetch never raises -/

/-- Claim C5: for every behaviour of the provider — a frame of rows
(possibly with all-NaN rows, possibly empty) or a raised exception —
`fetch_yf_data` returns a (possibly empty) price series: on any raise
it returns the empty series, and on a frame it returns the frame's
non-NaN rows.  It is a total function: nothing propagates into the
core. -/
theorem c5_fetch_total (r : ProviderResp) :
    (∀ e, r = .err e → fetch_yf_data r = []) ∧
    (∀ rows, r = .ok rows → fetch_yf_data r = rows.filterMap id) := by
  constructor
  · intro e he; subst he; rfl
  · intro rows hrows; subst hrows; rfl

/-- Witness for `c5_fetch_total` at a raising provider response. -/
theorem c5_witness : fetch_yf_data (.err "HTTP timeout") = [] :=
  (c5_fetch_total (.err "HTTP timeout")).1 "HTTP timeout" rfl

/-! ### C9: shape of the `analyze_ticker` result dictionary -/

/-- Claim C9: for every ticker string and every provider behaviour the
result dictionary carries "ticker" equal to the uppercased-and-stripped
input and a boolean "ok"; when "ok" is false the dictionary has a
"reason" string and none of the metric fields; when "ok" is true all
five metric fields are present. -/
theorem c9_analyze_shape (p : String → ProviderResp) (t : String) :
    dget (analyze_ticker p t) "ticker" =
      some (.str (pyStrip (pyUpper t))) ∧
    (∃ b : Bool, dget (analyze_ticker p t) "ok" = some (.bool b)) ∧
    (dget (analyze_ticker p t) "ok" = some (.bool false) →
      dget (analyze_ticker p t) "reason" = some (.str "No data from yfinance") ∧
      dget (analyze_ticker p t) "last_price" = Option.none ∧
      dget (analyze_ticker p t) "ma20" = Option.none ∧
      dget (analyze_ticker p t) "momentum" = Option.none ∧
      dget (analyze_ticker p t) "last_volume" = Option.none ∧
      dget (analyze_ticker p t) "avg_volume_20" = Option.none) ∧
    (dget (analyze_ticker p t) "ok" = some (.bool true) →
      (∃ v, dget (analyze_ticker p t) "last_price" = some v) ∧
      (∃ v, dget (analyze_ticker p t) "ma20" = some v) ∧
      (∃ v, dget (analyze_ticker p t) "momentum" = some v) ∧
      (∃ v, dget (analyze_ticker p t) "last_volume" = some v) ∧
      (∃ v, dget (analyze_ticker p t) "avg_volume_20" = some v)) := by
  cases hf : fetch_yf_data (p (pyStrip (pyUpper t))) with
  | nil =>
    rw [analyze_ticker_of_empty p t hf]
    exact ⟨rfl, ⟨false, rfl⟩,
      fun _ => ⟨rfl, rfl, rfl, rfl, rfl, rfl⟩,
      fun hok => by cases (Option.some.injEq _ _ ▸ hok : PyVal.bool false = PyVal.bool true)⟩
  | cons b bs =>
    rw [analyze_ticker_of_cons p t b bs hf]
    refine ⟨rfl, ⟨true, rfl⟩, fun hok => ?_, fun _ => ?_⟩
    · cases (Option.some.injEq _ _ ▸ hok : PyVal.bool true = PyVal.bool false)
    · exact ⟨⟨_, rfl⟩, ⟨_, rfl⟩, ⟨_, rfl⟩, ⟨_, rfl⟩, ⟨_, rfl⟩⟩

/-- Witness for `c9_analyze_shape` at a raising provider and a
lower-case padded ticker. -/
theorem c9_witness :
    dget (analyze_ticker (fun _ => .err "down") " aapl ") "ticker" =
      some (.str "AAPL") ∧
    dget (analyze_ticker (fun _ => .err "down") " aapl ") "reason" =
      some (.str "No data from yfinance") ∧
    dget (analyze_ticker (fun _ => .err "down") " aapl ") "last_price" =
      Option.none := by
  have h := c9_analyze_shape (fun _ => .err "down") " aapl "
  have hok : dget (analyze_ticker (fun _ => .err "down") " aapl ") "ok" =
      some (.bool false) := by
    rw [analyze_ticker_of_empty (fun _ => .err "down") " aapl " rfl]
    rfl
  have h3 := h.2.2.1 hok
  refine ⟨?_, h3.1, h3.2.1⟩
  rw [h.1]
  decide

/-! ### C10: effect of one "Analyze now" activation on the session -/

/-- Claim C10: a single "Analyze now" activation increments the daily
usage counter by exactly one — whatever the ticker batch and whatever
the provider does — and leaves the auth flag, the stored license key
and the current date of the session unchanged. -/
theorem c10_click_frame (p : String → ProviderResp) (tickersStr : String)
    (s : Session) :
    (analyzeNowClick p tickersStr s).today_count = s.today_count + 1 ∧
    (analyzeNowClick p tickersStr s).auth_ok = s.auth_ok ∧
    (analyzeNowClick p tickersStr s).license = s.license ∧
    (analyzeNowClick p tickersStr s).today_date = s.today_date :=
  ⟨rfl, rfl, rfl, rfl⟩

/-! ### C6: ticker token parsing -/

/-- `pyUpper` sends only the empty string to the empty string. -/
theorem pyUpper_empty_iff {s : String} : pyUpper s = "" ↔ s = "" := by
  constructor
  · intro h
    have hd : s.data.map Char.toUpper = [] := congrArg String.data h
    have hnil : s.data = [] := List.map_eq_nil_iff.mp hd
    cases s with
    | mk d => cases hnil; rfl
  · intro h; subst h; rfl

/-- The comprehension filter/map of src/app.py:241, as a filter of a map. -/
theorem filterMap_strip_upper (l : List String) :
    (l.filterMap fun t =>
      let u := pyStrip t
      if u = "" then Option.none else some (pyUpper u)) =
    (l.map fun t => pyUpper (pyStrip t)).filter fun u => !(u == "") := by
  induction l with
  | nil => rfl
  | cons t ts ih =>
    by_cases h : pyStrip t = ""
    · have h2 : pyUpper (pyStrip t) = "" := by rw [h]; rfl
      simp only [List.filterMap_cons, List.map_cons, List.filter_cons, h, h2,
        if_pos rfl, ih]
      simp [show pyUpper "" = "" from rfl]
    · have h2 : ¬ pyUpper (pyStrip t) = "" := fun hc => h (pyUpper_empty_iff.mp hc)
      simp only [List.filterMap_cons, List.map_cons, List.filter_cons, if_neg h, ih]
      simp [h2]

/-- Claim C6 is false on the code: the input "AAPL, AAPL" parses to
`["AAPL", "AAPL"]` — the same symbol appears twice in the processed
batch; nothing deduplicates. -/
theorem c6_counterexample :
    parseTickers "AAPL, AAPL" = ["AAPL", "AAPL"] ∧
    ¬ (parseTickers "AAPL, AAPL").Nodup := by
  constructor
  · decide
  · decide

/-- Claim C6 (amended): the orchestrator's effective input is the
sequence of stripped-then-uppercased tokens of the comma-split input
with empty tokens dropped, in first-to-last order; duplicates are
retained. -/
theorem c6_amended_tokens (s : String) :
    parseTickers s =
      ((splitCommas s).map fun t => pyUpper (pyStrip t)).filter fun u => !(u == "") := by
  unfold parseTickers
  exact filterMap_strip_upper (splitCommas s)

/-- The row dictionary `build_dataframe` produces for one scanned
ticker: a failure row or a success row, depending on the fetch. -/
def rowDict (p : String → ProviderResp) (t : String) : Dict :=
  match fetch_yf_data (p (pyStrip (pyUpper t))) with
  | [] => [("ticker", .str (pyStrip (pyUpper t))),
           ("status", .str "No data from yfinance")]
  | b :: bs =>
    [("ticker", .str (pyStrip (pyUpper t))),
     ("price", .num ((b :: bs).getLast (by simp)).close),
     ("ma20", .num (pdMean ((pdTail 20 (b :: bs)).map Bar.close))),
     ("momentum", .str (if ((b :: bs).getLast (by simp)).close >
         pdMean ((pdTail 20 (b :: bs)).map Bar.close)
       then "bullish" else "neutral/weak")),
     ("last_volume", .int (pyInt ((b :: bs).getLast (by simp)).volume)),
     ("avg_volume_20", .int (pyInt (pdMean ((pdTail 20 (b :: bs)).map Bar.volume))))]

/-- `buildRow` never raises on a dictionary produced by
`analyze_ticker`, and yields the matching output row. -/
theorem buildRow_analyze (p : String → ProviderResp) (t : String) :
    buildRow (analyze_ticker p t) = some (rowDict p t) := by
  cases hf : fetch_yf_data (p (pyStrip (pyUpper t))) with
  | nil =>
    rw [analyze_ticker_of_empty p t hf]
    unfold rowDict
    rw [hf]
    rfl
  | cons b bs =>
    rw [analyze_ticker_of_cons p t b bs hf]
    unfold rowDict
    rw [hf]
    rfl

/-- The scan's row collection succeeds for every batch and yields one
row dictionary per ticker, in order. -/
theorem buildRows_runScan (p : String → ProviderResp) (ts : List String) :
    buildRows (runScan p ts) = some (ts.map (rowDict p)) := by
  induction ts with
  | nil => rfl
  | cons t ts ih =>
    show buildRows (analyze_ticker p t :: (runScan p ts)) = _
    unfold buildRows
    rw [buildRow_analyze p t, ih]
    rfl

theorem build_dataframe_runScan (p : String → ProviderResp) (ts : List String) :
    build_dataframe (runScan p ts) = some (mkFrame (ts.map (rowDict p))) := by
  unfold build_dataframe
  rw [buildRows_runScan]
  rfl

theorem mem_addCol {acc : List String} {k c : String} :
    c ∈ addCol acc k ↔ c ∈ acc ∨ c = k := by
  unfold addCol
  by_cases h : k ∈ acc
  · rw [if_pos h]
    constructor
    · exact fun hc => Or.inl hc
    · rintro (hc | hc)
      · exact hc
      · exact hc ▸ h
  · rw [if_neg h]
    simp [List.mem_append]

theorem mem_foldl_addCol (ks : List String) (acc : List String) (c : String) :
    c ∈ ks.foldl addCol acc ↔ c ∈ acc ∨ c ∈ ks := by
  induction ks generalizing acc with
  | nil => simp
  | cons k ks ih =>
    simp only [List.foldl_cons, ih, mem_addCol, List.mem_cons]
    tauto

theorem mem_foldl_cols (ds : List Dict) (acc : List String) (c : String) :
    c ∈ ds.foldl (fun acc d => (d.map Prod.fst).foldl addCol acc) acc ↔
      c ∈ acc ∨ ∃ d ∈ ds, c ∈ d.map Prod.fst := by
  induction ds generalizing acc with
  | nil => simp
  | cons d ds ih =>
    simp only [List.foldl_cons, ih, mem_foldl_addCol, List.mem_cons]
    constructor
    · rintro ((h | h) | ⟨d', hd', hc⟩)
      · exact Or.inl h
      · exact Or.inr ⟨d, Or.inl rfl, h⟩
      · exact Or.inr ⟨d', Or.inr hd', hc⟩
    · rintro (h | ⟨d', (hd' | hd'), hc⟩)
      · exact Or.inl (Or.inl h)
      · exact Or.inl (Or.inr (hd' ▸ hc))
      · exact Or.inr ⟨d', hd', hc⟩

theorem mem_collectCols (ds : List Dict) (c : String) :
    c ∈ collectCols ds ↔ ∃ d ∈ ds, c ∈ d.map Prod.fst := by
  unfold collectCols
  rw [mem_foldl_cols]
  simp

theorem foldl_addCol_head (ks : List String) (acc : List String) (h : acc ≠ []) :
    (ks.foldl addCol acc).head? = acc.head? ∧ ks.foldl addCol acc ≠ [] := by
  induction ks generalizing acc with
  | nil => exact ⟨rfl, h⟩
  | cons k ks ih =>
    have h1 : (addCol acc k).head? = acc.head? ∧ addCol acc k ≠ [] := by
      unfold addCol
      by_cases hk : k ∈ acc
      · rw [if_pos hk]; exact ⟨rfl, h⟩
      · rw [if_neg hk]
        cases acc with
        | nil => exact absurd rfl h
        | cons a as => exact ⟨by simp, by simp⟩
    have h2 := ih (addCol acc k) h1.2
    exact ⟨h2.1.trans h1.1, h2.2⟩

theorem foldl_cols_head (ds : List Dict) (acc : List String) (h : acc ≠ []) :
    (ds.foldl (fun acc d => (d.map Prod.fst).foldl addCol acc) acc).head? = acc.head? ∧
    ds.foldl (fun acc d => (d.map Prod.fst).foldl addCol acc) acc ≠ [] := by
  induction ds generalizing acc with
  | nil => exact ⟨rfl, h⟩
  | cons d ds ih =>
    have h1 := foldl_addCol_head (d.map Prod.fst) acc h
    have h2 := ih _ h1.2
    exact ⟨h2.1.trans h1.1, h2.2⟩

/-- The first column of a frame whose first row dict starts with key
`k0` is `k0`. -/
theorem collectCols_head (d0 : Dict) (ds : List Dict) (k0 : String) (v0 : PyVal)
    (rest : Dict) (h0 : d0 = (k0, v0) :: rest) :
    (collectCols (d0 :: ds)).head? = some k0 ∧ collectCols (d0 :: ds) ≠ [] := by
  unfold collectCols
  subst h0
  simp only [List.foldl_cons, List.map_cons]
  have hbase : addCol ([] : List String) k0 = [k0] := by unfold addCol; simp
  rw [hbase]
  have h1 := foldl_addCol_head (rest.map Prod.fst) [k0] (by simp)
  have h2 := foldl_cols_head ds _ h1.2
  exact ⟨h2.1.trans (h1.1.trans rfl), h2.2⟩

theorem dget_pair_cases (k1 k2 c : String) (v1 v2 : PyVal) :
    dget [(k1, v1), (k2, v2)] c = some v1 ∨
    dget [(k1, v1), (k2, v2)] c = some v2 ∨
    dget [(k1, v1), (k2, v2)] c = Option.none := by
  simp only [dget]
  by_cases h1 : k1 = c
  · rw [if_pos h1]; exact Or.inl rfl
  · rw [if_neg h1]
    by_cases h2 : k2 = c
    · rw [if_pos h2]; exact Or.inr (Or.inl rfl)
    · rw [if_neg h2]; exact Or.inr (Or.inr rfl)

theorem rowDict_eq_cons (p : String → ProviderResp) (t : String) :
    ∃ rest, rowDict p t = ("ticker", PyVal.str (pyStrip (pyUpper t))) :: rest := by
  unfold rowDict
  cases fetch_yf_data (p (pyStrip (pyUpper t))) with
  | nil => exact ⟨_, rfl⟩
  | cons b bs => exact ⟨_, rfl⟩

theorem dget_rowDict_ticker (p : String → ProviderResp) (t : String) :
    dget (rowDict p t) "ticker" = some (.str (pyStrip (pyUpper t))) := by
  obtain ⟨rest, hr⟩ := rowDict_eq_cons p t
  rw [hr]
  simp [dget]

theorem keys_rowDict (p : String → ProviderResp) (t : String) :
    (rowDict p t).map Prod.fst = ["ticker", "status"] ∨
    (rowDict p t).map Prod.fst =
      ["ticker", "price", "ma20", "momentum", "last_volume", "avg_volume_20"] := by
  unfold rowDict
  cases fetch_yf_data (p (pyStrip (pyUpper t))) with
  | nil => exact Or.inl rfl
  | cons b bs => exact Or.inr rfl

/-- Claim C3: every batch scan completes — `build_dataframe` never
fails on scan results — with exactly one output row per requested
symbol, in order; a symbol whose fetch comes back empty still gets a
row, carrying its ticker and the "No data from yfinance" status, in
which every other requested field is missing (NaN), and no row is
dropped. -/
theorem c3_one_row_per_symbol (p : String → ProviderResp) (ts : List String) :
    ∃ f, build_dataframe (runScan p ts) = some f ∧
      f.rows.length = ts.length ∧
      ∀ i (hi : i < ts.length),
        fetch_yf_data (p (pyStrip (pyUpper ts[i]))) = [] →
        ∃ row, f.rows[i]? = some row ∧
          some (PyVal.str (pyStrip (pyUpper ts[i]))) ∈ row ∧
          some (PyVal.str "No data from yfinance") ∈ row ∧
          ∀ cell ∈ row,
            cell = Option.none ∨
            cell = some (PyVal.str (pyStrip (pyUpper ts[i]))) ∨
            cell = some (PyVal.str "No data from yfinance") := by
  refine ⟨mkFrame (ts.map (rowDict p)), build_dataframe_runScan p ts, ?_, ?_⟩
  · simp [mkFrame]
  · intro i hi hf
    have hfail : rowDict p ts[i] =
        [("ticker", .str (pyStrip (pyUpper ts[i]))),
         ("status", .str "No data from yfinance")] := by
      unfold rowDict
      rw [hf]
    have hrow : (mkFrame (ts.map (rowDict p))).rows[i]? =
        some ((collectCols (ts.map (rowDict p))).map fun c =>
          dget (rowDict p ts[i]) c) := by
      show (((ts.map (rowDict p))).map fun d =>
        (collectCols (ts.map (rowDict p))).map fun c => dget d c)[i]? = _
      rw [List.getElem?_map, List.getElem?_map, List.getElem?_eq_getElem hi]
      rfl
    refine ⟨_, hrow, ?_, ?_, ?_⟩
    · refine List.mem_map.mpr ⟨"ticker", ?_, ?_⟩
      · refine (mem_collectCols _ _).mpr ⟨rowDict p ts[i], ?_, ?_⟩
        · exact List.mem_map.mpr ⟨ts[i], List.getElem_mem hi, rfl⟩
        · rw [hfail]; simp
      · rw [hfail]; simp [dget]
    · refine List.mem_map.mpr ⟨"status", ?_, ?_⟩
      · refine (mem_collectCols _ _).mpr ⟨rowDict p ts[i], ?_, ?_⟩
        · exact List.mem_map.mpr ⟨ts[i], List.getElem_mem hi, rfl⟩
        · rw [hfail]; simp
      · rw [hfail]; simp [dget]
    · intro cell hcell
      obtain ⟨c, _, hc⟩ := List.mem_map.mp hcell
      rw [hfail] at hc
      rcases dget_pair_cases "ticker" "status" c
          (.str (pyStrip (pyUpper ts[i]))) (.str "No data from yfinance") with h | h | h
      · exact Or.inr (Or.inl (hc ▸ h ▸ rfl))
      · exact Or.inr (Or.inr (hc ▸ h ▸ rfl))
      · exact Or.inl (hc ▸ h ▸ rfl)

/-- Witness for `c3_one_row_per_symbol`: one no-data symbol. -/
theorem c3_witness :
    ∃ f, build_dataframe (runScan (fun _ => ProviderResp.err "outage") ["aapl"]) = some f ∧
      f.rows.length = 1 ∧
      ∃ row, f.rows[0]? = some row ∧
        some (PyVal.str "AAPL") ∈ row ∧
        some (PyVal.str "No data from yfinance") ∈ row := by
  obtain ⟨f, hbuild, hlen, hrow⟩ :=
    c3_one_row_per_symbol (fun _ => ProviderResp.err "outage") ["aapl"]
  obtain ⟨row, h1, h2, h3, _⟩ := hrow 0 (by decide) rfl
  have hn : pyStrip (pyUpper (["aapl"] : List String)[0]) = "AAPL" := by decide
  rw [hn] at h2
  exact ⟨f, hbuild, hlen, row, h1, h2, h3⟩

/-- Claim C4 (amended): the output table is not ranked: it has no
score column at all, and its rows appear in input order — row `i`
starts with the ticker of the `i`-th requested symbol — with no-data
instruments included as status rows rather than excluded. -/
theorem c4_amended_input_order (p : String → ProviderResp) (ts : List String) :
    ∃ f, build_dataframe (runScan p ts) = some f ∧
      "score" ∉ f.cols ∧
      f.rows.length = ts.length ∧
      ∀ i (hi : i < ts.length),
        ∃ row, f.rows[i]? = some row ∧
          row.head? = some (some (PyVal.str (pyStrip (pyUpper ts[i])))) := by
  refine ⟨mkFrame (ts.map (rowDict p)), build_dataframe_runScan p ts, ?_,
    by simp [mkFrame], ?_⟩
  · intro hmem
    obtain ⟨d, hd, hk⟩ := (mem_collectCols _ _).mp hmem
    obtain ⟨t, _, rfl⟩ := List.mem_map.mp hd
    rcases keys_rowDict p t with h | h <;> rw [h] at hk <;> simp at hk
  · intro i hi
    have hrow : (mkFrame (ts.map (rowDict p))).rows[i]? =
        some ((collectCols (ts.map (rowDict p))).map fun c =>
          dget (rowDict p ts[i]) c) := by
      show (((ts.map (rowDict p))).map fun d =>
        (collectCols (ts.map (rowDict p))).map fun c => dget d c)[i]? = _
      rw [List.getElem?_map, List.getElem?_map, List.getElem?_eq_getElem hi]
      rfl
    refine ⟨_, hrow, ?_⟩
    rw [List.head?_map]
    cases ts with
    | nil => exact absurd hi (by simp)
    | cons t0 ts' =>
      obtain ⟨rest, hr⟩ := rowDict_eq_cons p t0
      have hh := collectCols_head (rowDict p t0) (ts'.map (rowDict p)) "ticker"
        (.str (pyStrip (pyUpper t0))) rest hr
      rw [show ((t0 :: ts').map (rowDict p)) = rowDict p t0 :: ts'.map (rowDict p)
        from rfl, hh.1]
      simp [dget_rowDict_ticker]

/-- Claim C4 is false on the code: two symbols with identical data
(hence equal metrics), requested in the order `["B", "A"]`, come out in
that input order — "B" first — although "A" is lexicographically
smaller, and the table has no score column to rank by (so no
minimum-score row exists either). -/
theorem c4_counterexample :
    ∃ f, build_dataframe (runScan exProvider ["B", "A"]) = some f ∧
      f.rows.map (fun r => r.head?) =
        [some (some (PyVal.str "B")), some (some (PyVal.str "A"))] ∧
      ("A" < "B") ∧ "score" ∉ f.cols := by
  refine ⟨mkFrame (["B", "A"].map (rowDict exProvider)),
    build_dataframe_runScan exProvider ["B", "A"], ?_,
    by rw [String.lt_iff_toList_lt]; decide, ?_⟩
  · obtain ⟨rest, hr⟩ := rowDict_eq_cons exProvider "B"
    have hcs : (collectCols (["B", "A"].map (rowDict exProvider))).head? =
        some "ticker" :=
      (collectCols_head (rowDict exProvider "B")
        ([rowDict exProvider "A"]) "ticker" _ rest hr).1
    show [((collectCols (["B", "A"].map (rowDict exProvider))).map fun c =>
            dget (rowDict exProvider "B") c).head?,
          ((collectCols (["B", "A"].map (rowDict exProvider))).map fun c =>
            dget (rowDict exProvider "A") c).head?] = _
    rw [List.head?_map, List.head?_map, hcs]
    simp [dget_rowDict_ticker, show pyStrip (pyUpper "B") = "B" from by decide,
      show pyStrip (pyUpper "A") = "A" from by decide]
  · intro hmem
    obtain ⟨d, hd, hk⟩ := (mem_collectCols _ _).mp hmem
    obtain ⟨t, _, rfl⟩ := List.mem_map.mp hd
    rcases keys_rowDict exProvider t with h | h <;> rw [h] at hk <;> simp at hk

/-- Witness for `c4_amended_input_order` at a two-symbol batch. -/
theorem c4_witness :
    ∃ f, build_dataframe (runScan exProvider ["MSFT", "AAPL"]) = some f ∧
      "score" ∉ f.cols ∧
      f.rows.length = 2 ∧
      ∃ row, f.rows[0]? = some row ∧
        row.head? = some (some (PyVal.str "MSFT")) := by
  obtain ⟨f, hbuild, hscore, hlen, hrow⟩ :=
    c4_amended_input_order exProvider ["MSFT", "AAPL"]
  obtain ⟨row, h1, h2⟩ := hrow 0 (by decide)
  have hn : pyStrip (pyUpper (["MSFT", "AAPL"] : List String)[0]) = "MSFT" := by decide
  rw [hn] at h2
  exact ⟨f, hbuild, hscore, hlen, row, h1, h2⟩

/-- Modelled from the spec: cell text of the delimited export (the code
delegates serialization to the external pandas `to_csv(index=False)`
call at src/app.py:205, which is not repository code).  A missing
(NaN/None) value renders as the empty field, never as "None"/"NaN". -/
def renderPyVal : PyVal → List Char
  | .str s => s.data
  | .num q => (toString q).data
  | .int n => (toString n).data
  | .bool b => (toString b).data
  | .none => []

/-- Modelled from the spec: an unavailable (missing) cell serializes as
the empty field. -/
def renderCell : Option PyVal → List Char
  | Option.none => []
  | some v => renderPyVal v

/-- Join a list of character lists with a separator character. -/
def intercalateChar (c : Char) : List (List Char) → List Char
  | [] => []
  | [p] => p
  | p :: ps => p ++ c :: intercalateChar c ps

/-- Modelled from the spec: the delimited export text of a frame — a
header line of the column names (column order = insertion order)
followed by one line per row, fields comma-separated, lines
newline-separated. -/
def writeCSV (f : Frame) : List Char :=
  intercalateChar '\n'
    (((f.cols.map String.data) :: f.rows.map fun r => r.map renderCell).map
      (intercalateChar ','))

/-- Modelled from the spec: parsing the delimited export text back into
lines of fields. -/
def parseCSV (text : List Char) : List (List (List Char)) :=
  (splitOnChar '\n' text).map (splitOnChar ',')

/-- A field is CSV-safe when it contains neither separator. -/
def csvSafe (l : List Char) : Prop := ',' ∉ l ∧ '\n' ∉ l

/-- A frame is exportable: nonempty header, nonempty rows, CSV-safe
column names and cell texts (true of every frame the scanner builds:
its strings are tickers and fixed labels without commas or newlines). -/
def csvExportable (f : Frame) : Prop :=
  f.cols ≠ [] ∧ (∀ s ∈ f.cols, csvSafe s.data) ∧
  ∀ r ∈ f.rows, r ≠ [] ∧ ∀ cell ∈ r, csvSafe (renderCell cell)

theorem splitOnChar_of_not_mem (c : Char) (l : List Char) (h : c ∉ l) :
    splitOnChar c l = [l] := by
  induction l with
  | nil => rfl
  | cons x xs ih =>
    have hx : x ≠ c := fun he => h (he ▸ List.mem_cons_self x xs)
    have hxs : c ∉ xs := fun hm => h (List.mem_cons_of_mem x hm)
    simp only [splitOnChar, if_neg hx, ih hxs]

theorem splitOnChar_append (c : Char) (p t : List Char) (hp : c ∉ p) :
    splitOnChar c (p ++ c :: t) = p :: splitOnChar c t := by
  induction p with
  | nil =>
    show splitOnChar c (c :: t) = [] :: splitOnChar c t
    simp [splitOnChar]
  | cons x xs ih =>
    have hx : x ≠ c := fun he => hp (he ▸ List.mem_cons_self x xs)
    have hxs : c ∉ xs := fun hm => hp (List.mem_cons_of_mem x hm)
    show splitOnChar c (x :: (xs ++ c :: t)) = _
    simp only [splitOnChar, if_neg hx, ih hxs]

theorem splitOnChar_intercalate (c : Char) (parts : List (List Char))
    (h : ∀ p ∈ parts, c ∉ p) (hne : parts ≠ []) :
    splitOnChar c (intercalateChar c parts) = parts := by
  induction parts with
  | nil => exact absurd rfl hne
  | cons p ps ih =>
    cases ps with
    | nil => exact splitOnChar_of_not_mem c p (h p (List.mem_cons_self p []))
    | cons q qs =>
      show splitOnChar c (p ++ c :: intercalateChar c (q :: qs)) = p :: (q :: qs)
      rw [splitOnChar_append c p _ (h p (List.mem_cons_self _ _)),
        ih (fun x hx => h x (List.mem_cons_of_mem p hx)) (by simp)]

theorem not_mem_intercalateChar (c sep : Char) (parts : List (List Char))
    (h : ∀ p ∈ parts, c ∉ p) (hcs : c ≠ sep) :
    c ∉ intercalateChar sep parts := by
  induction parts with
  | nil => simp [intercalateChar]
  | cons p ps ih =>
    cases ps with
    | nil => exact h p (List.mem_cons_self p [])
    | cons q qs =>
      show c ∉ p ++ sep :: intercalateChar sep (q :: qs)
      intro hm
      rcases List.mem_append.mp hm with hm | hm
      · exact h p (List.mem_cons_self p _) hm
      · rcases List.mem_cons.mp hm with hm | hm
        · exact hcs hm
        · exact ih (fun x hx => h x (List.mem_cons_of_mem p hx)) hm

theorem map_split_intercalate (ls : List (List (List Char)))
    (hfe : ∀ fields ∈ ls, fields ≠ [])
    (hsafe : ∀ fields ∈ ls, ∀ x ∈ fields, ',' ∉ x) :
    (ls.map (intercalateChar ',')).map (splitOnChar ',') = ls := by
  induction ls with
  | nil => rfl
  | cons a as ih =>
    simp only [List.map_cons]
    rw [splitOnChar_intercalate ',' a (hsafe a (List.mem_cons_self a as))
        (hfe a (List.mem_cons_self a as)),
      ih (fun x hx => hfe x (List.mem_cons_of_mem a hx))
        (fun x hx => hsafe x (List.mem_cons_of_mem a hx))]

/-- Claim C8: serializing a ranked table to the delimited export
format and parsing it back yields the header (same column set, column
order = insertion order) and every cell's rendered text exactly — in
particular every populated field round-trips to its exact text (hence
numerically equal) and every unavailable field is serialized as the
empty field (not "None"/"NaN") and round-trips as empty. -/
theorem c8_roundtrip (f : Frame) (h : csvExportable f) :
    parseCSV (writeCSV f) =
      (f.cols.map String.data) :: f.rows.map (fun r => r.map renderCell) ∧
    ∀ r ∈ f.rows, ∀ cell ∈ r, cell = Option.none → renderCell cell = [] := by
  obtain ⟨hcols, hsafeCols, hrows⟩ := h
  refine ⟨?_, fun r _ cell _ hc => by rw [hc]; rfl⟩
  have hfields : ∀ fields ∈ ((f.cols.map String.data) ::
      f.rows.map fun r => r.map renderCell), ∀ x ∈ fields, ',' ∉ x ∧ '\n' ∉ x := by
    intro fields hf x hx
    rcases List.mem_cons.mp hf with hf | hf
    · subst hf
      obtain ⟨s, hs, rfl⟩ := List.mem_map.mp hx
      exact ⟨(hsafeCols s hs).1, (hsafeCols s hs).2⟩
    · obtain ⟨r, hr, rfl⟩ := List.mem_map.mp hf
      obtain ⟨cell, hcell, rfl⟩ := List.mem_map.mp hx
      exact ⟨((hrows r hr).2 cell hcell).1, ((hrows r hr).2 cell hcell).2⟩
  have hfe : ∀ fields ∈ ((f.cols.map String.data) ::
      f.rows.map fun r => r.map renderCell), fields ≠ [] := by
    intro fields hf
    rcases List.mem_cons.mp hf with hf | hf
    · subst hf
      simpa using hcols
    · obtain ⟨r, hr, rfl⟩ := List.mem_map.mp hf
      simpa using (hrows r hr).1
  unfold parseCSV writeCSV
  rw [splitOnChar_intercalate '\n' _ ?hnl (by simp)]
  case hnl =>
    intro L hL
    obtain ⟨fields, hf, rfl⟩ := List.mem_map.mp hL
    exact not_mem_intercalateChar '\n' ',' fields
      (fun x hx => (hfields fields hf x hx).2) (by decide)
  exact map_split_intercalate _ hfe (fun fs hf x hx => (hfields fs hf x hx).1)

/-- A concrete exportable frame: one no-data scan row. -/
def wFrame : Frame :=
  { cols := ["ticker", "status"],
    rows := [[some (.str "AAPL"), Option.none]] }

/-- Witness for `c8_roundtrip` at a concrete no-data scan frame. -/
theorem c8_witness :
    parseCSV (writeCSV wFrame) =
      (wFrame.cols.map String.data) ::
        wFrame.rows.map (fun r => r.map renderCell) ∧
    ∀ r ∈ wFrame.rows, ∀ cell ∈ r, cell = Option.none → renderCell cell = [] :=
  c8_roundtrip wFrame (by unfold csvExportable csvSafe; decide)
